import Mathlib

/-!
Verification of the `krpc-build` code generator (`src/krpc-build/src/lib.rs`).

The generator reads JSON service-description documents and emits Rust client
bindings.  We shallowly embed:

* JSON values (`Json`), modelling `serde_json::Value`; objects are association
  lists in map-iteration order, and the fallible accessors (`as_object`,
  `as_array`, `as_str`, `Map::get`, `Value::get`) return `Option`, with `none`
  standing for a Rust `unwrap` panic, which aborts the whole run.
* The identifier-casing conversions of the external `convert_case` crate
  (`to_case(Case::Snake)`, `to_case(Case::Pascal)`, `is_case(Case::Pascal)`),
  modelled from that crate's documented default word boundaries
  (underscore / hyphen / space delimiters, lower→upper, digit boundaries,
  and the acronym boundary) and its snake/pascal output patterns.
* The builder structures of the external `codegen` crate (`Scope`, `Module`,
  `Struct`, `Impl`, `Function`) at the structural fidelity the generator uses:
  ordered items, names, visibilities, arguments, return types, body lines.
* The generator's own functions `build`, `build_json`, `decode_type`,
  `decode_tuple`, `decode_list`, `decode_class`, keeping the source's names.
-/

namespace Krpc

/-- Model of `serde_json::Value`.  Objects are association lists whose list
order is the map's iteration order. -/
inductive Json where
  | null : Json
  | bool (b : Bool) : Json
  | num (n : Int) : Json
  | str (s : String) : Json
  | arr (xs : List Json) : Json
  | obj (kvs : List (String × Json)) : Json
deriving Repr

/-- `serde_json::Map::get`: look a key up in an object's entry list. -/
def objGet (kvs : List (String × Json)) (k : String) : Option Json :=
  match kvs with
  | [] => none
  | (k', v) :: rest => if k' = k then some v else objGet rest k

/-- `Value::as_object`. -/
def Json.asObject : Json → Option (List (String × Json))
  | Json.obj kvs => some kvs
  | _ => none

/-- `Value::as_array`. -/
def Json.asArray : Json → Option (List Json)
  | Json.arr xs => some xs
  | _ => none

/-- `Value::as_str`. -/
def Json.asStr : Json → Option String
  | Json.str s => some s
  | _ => none

/-- `Value::get(key)`: `Some` only on objects that contain the key. -/
def Json.get (j : Json) (k : String) : Option Json :=
  match j with
  | Json.obj kvs => objGet kvs k
  | _ => none

/-! ### Identifier casing, modelling the `convert_case` crate -/

/-- Delimiter boundaries of `convert_case`'s defaults: underscore, hyphen,
space.  Delimiters separate words and are dropped from the output. -/
def isDelim (c : Char) : Bool :=
  c = '_' || c = '-' || c = ' '

/-- Non-delimiter word boundaries of `convert_case`'s defaults, tested
between the previous character `p`, the current character `c`, and the
lookahead `n`: lower→upper, the four letter/digit transitions, and the
acronym boundary (upper, upper, then lower). -/
def isBoundary (p c : Char) (n : Option Char) : Bool :=
  (p.isLower && c.isUpper) ||
  (p.isDigit && c.isUpper) ||
  (p.isDigit && c.isLower) ||
  (p.isLower && c.isDigit) ||
  (p.isUpper && c.isDigit) ||
  (p.isUpper && c.isUpper && (match n with | some nc => nc.isLower | none => false))

/-- Split a character stream into words at the default boundaries; `acc`
holds the current word reversed. -/
def splitWordsAux : List Char → List Char → List (List Char)
  | [], acc => if acc.isEmpty then [] else [acc.reverse]
  | c :: rest, acc =>
    if isDelim c then
      (if acc.isEmpty then [] else [acc.reverse]) ++ splitWordsAux rest []
    else
      match acc with
      | [] => splitWordsAux rest [c]
      | p :: _ =>
        if isBoundary p c rest.head? then
          acc.reverse :: splitWordsAux rest [c]
        else
          splitWordsAux rest (c :: acc)

/-- Word segmentation of an identifier. -/
def splitWords (s : String) : List (List Char) :=
  splitWordsAux s.data []

/-- Capitalize one word: first character upper, the rest lower. -/
def capitalizeWord : List Char → List Char
  | [] => []
  | c :: rest => c.toUpper :: rest.map Char.toLower

/-- `s.to_case(Case::Pascal)`: every word capitalized, joined with nothing. -/
def toPascalCase (s : String) : String :=
  String.mk (List.flatten ((splitWords s).map capitalizeWord))

/-- `s.to_case(Case::Snake)`: every word lowercased, joined with `_`. -/
def toSnakeCase (s : String) : String :=
  String.intercalate "_" ((splitWords s).map (fun w => String.mk (w.map Char.toLower)))

/-- `s.is_case(Case::Pascal)`, which `convert_case` implements as
`s.to_case(Case::Pascal) == s`. -/
def isCasePascal (s : String) : Bool :=
  toPascalCase s == s

/-! ### Size lemmas for the recursion of the type resolver -/

theorem sizeOf_objGet {kvs : List (String × Json)} {k : String} {v : Json}
    (h : objGet kvs k = some v) : sizeOf v < sizeOf kvs := by
  induction kvs with
  | nil => simp [objGet] at h
  | cons hd tl ih =>
    obtain ⟨k', v'⟩ := hd
    simp only [objGet] at h
    split at h
    · cases h
      simp
      omega
    · have := ih h
      simp
      omega

theorem sizeOf_asObject {j : Json} {kvs : List (String × Json)}
    (h : j.asObject = some kvs) : sizeOf kvs < sizeOf j := by
  cases j <;> simp [Json.asObject] at h
  subst h
  simp

theorem sizeOf_asArray {j : Json} {xs : List Json}
    (h : j.asArray = some xs) : sizeOf xs < sizeOf j := by
  cases j <;> simp [Json.asArray] at h
  subst h
  simp

/-! ### The type resolver: `decode_type` and friends -/

/-- Rust `decode_class`: read the `service` and `name` strings and emit a
fully qualified path whose service segment is snake-cased and whose class
name is spliced in unchanged. -/
def decode_class (ty : List (String × Json)) : Option String :=
  match objGet ty "service" with
  | none => none
  | some sJ =>
    match sJ.asStr with
    | none => none
    | some service =>
      match objGet ty "name" with
      | none => none
      | some nJ =>
        match nJ.asStr with
        | none => none
        | some name => some ("crate::services::" ++ toSnakeCase service ++ "::" ++ name)

mutual

/-- Rust `decode_type`: dispatch on the `code` string; the five primitive
codes map to fixed names, `TUPLE`/`LIST`/`CLASS` recurse, and any other
code falls to the wildcard arm returning the empty string. -/
def decode_type (ty : List (String × Json)) : Option String :=
  match objGet ty "code" with
  | none => none
  | some codeJ =>
    match codeJ.asStr with
    | none => none
    | some code =>
      match code with
      | "STRING" => some "String"
      | "SINT32" => some "i32"
      | "BOOL" => some "bool"
      | "FLOAT" => some "f32"
      | "DOUBLE" => some "f64"
      | "TUPLE" => decode_tuple ty
      | "LIST" => decode_list ty
      | "CLASS" => decode_class ty
      | _ => some ""
termination_by (sizeOf ty, 1)

/-- Rust `decode_tuple`: decode every entry of `types` in order and wrap
them in parentheses joined by `", "`. -/
def decode_tuple (ty : List (String × Json)) : Option String :=
  match h1 : objGet ty "types" with
  | none => none
  | some typesJ =>
    match h2 : typesJ.asArray with
    | none => none
    | some types =>
      match decode_type_list types with
      | none => none
      | some out => some ("(" ++ String.intercalate ", " out ++ ")")
termination_by (sizeOf ty, 0)
decreasing_by
  have a1 := sizeOf_objGet h1
  have a2 := sizeOf_asArray h2
  apply Prod.Lex.left
  omega

/-- The element loop of `decode_tuple`: `as_object().unwrap()` then
`decode_type` on each entry. -/
def decode_type_list (types : List Json) : Option (List String) :=
  match types with
  | [] => some []
  | t :: rest =>
    match h : t.asObject with
    | none => none
    | some o =>
      match decode_type o with
      | none => none
      | some s => (decode_type_list rest).map (fun out => s :: out)
termination_by (sizeOf types, 0)
decreasing_by
  · have a1 := sizeOf_asObject h
    apply Prod.Lex.left
    simp
    omega
  · apply Prod.Lex.left
    simp
    try omega

/-- Rust `decode_list`: fetch `types`, take only its first entry
(`types.first().unwrap()`), decode it and wrap it in `Vec<...>`. -/
def decode_list (ty : List (String × Json)) : Option String :=
  match h1 : objGet ty "types" with
  | none => none
  | some typesJ =>
    match h2 : typesJ.asArray with
    | none => none
    | some types =>
      match types with
      | [] => none
      | t :: _ =>
        match h3 : t.asObject with
        | none => none
        | some o => (decode_type o).map (fun s => "Vec<" ++ s ++ ">")
termination_by (sizeOf ty, 0)
decreasing_by
  have a1 := sizeOf_objGet h1
  have a2 := sizeOf_asArray h2
  have a3 := sizeOf_asObject h3
  apply Prod.Lex.left
  simp at a2 ⊢
  omega

end

/-! ### Model of the `codegen` crate's builders, at the fidelity used here -/

/-- A `codegen::Function`: name, visibility, whether `arg_ref_self` was
called, the positional arguments (name, type), the optional return type,
and the body lines. -/
structure Function where
  name : String
  vis : Option String
  selfRef : Bool
  args : List (String × String)
  ret : Option String
  lines : List String
deriving Repr, DecidableEq

/-- A `codegen::Impl`: the target type name and the functions pushed into
it, in insertion order. -/
structure Impl where
  target : String
  fns : List Function
deriving Repr, DecidableEq

/-- A `codegen::Struct`: name, visibility and fields (name, type). -/
structure Strukt where
  name : String
  vis : Option String
  fields : List (String × String)
deriving Repr, DecidableEq

/-- One item of a module's scope, in insertion order: a struct, a raw
text line, or an impl block. -/
inductive Item where
  | strukt (s : Strukt) : Item
  | raw (s : String) : Item
  | impl_ (i : Impl) : Item
deriving Repr, DecidableEq

/-- A `codegen::Module`: name, visibility, imports (path, name) and the
ordered items of its scope. -/
structure Module where
  name : String
  vis : Option String
  imports : List (String × String)
  items : List Item
deriving Repr, DecidableEq

/-! ### The code emitter: `build_json` and its pieces -/

/-- The client-handle type used for the service struct's field and the
`new` constructor's argument. -/
def clientTy : String := "::std::sync::Arc<crate::client::Client>"

/-- The body template of every generated method, from the `format!` string
in `build_json`: the raw service name and raw procedure name are spliced
between quotes, the joined argument list into `vec![...]`.  The template
builds the request, performs one `self.client.call`, debug-prints the
response with `dbg!`, and converts the response with `.into()`. -/
def procBody (service procedure args : String) : String :=
  "\nlet request = crate::schema::Request::from(crate::client::Client::proc_call(\n    \"" ++
    service ++ "\",\n    \"" ++ procedure ++ "\",\n    vec![" ++ args ++
    "],\n));\n\nlet response = self.client.call(request);\ndbg!(&response);\n\nresponse.into()\n"

/-- The generated `new` constructor: `pub fn new(client: Arc<Client>) -> Self`
with body `Self { client }`. -/
def newFn : Function :=
  { name := "new", vis := some "pub", selfRef := false,
    args := [("client", clientTy)], ret := some "Self",
    lines := ["Self \x7b client \x7d"] }

/-- The parameter loop of `build_json` (`for (pos, p) in params.iter().enumerate()`),
threading the running position: for each parameter object, read `name`, snake-case
it, read and decode `type`; accumulate the method arguments (name, type) and the
`"{name}.to_argument({pos})"` strings in order. -/
def build_params (pos : Nat) (params : List Json) :
    Option (List (String × String) × List String) :=
  match params with
  | [] => some ([], [])
  | p :: rest => do
    let param ← p.asObject
    let nameJ ← objGet param "name"
    let nameRaw ← nameJ.asStr
    let name := toSnakeCase nameRaw
    let tyJ ← objGet param "type"
    let ty ← tyJ.asObject
    let tyStr ← decode_type ty
    let (args, procArgs) ← build_params (pos + 1) rest
    pure ((name, tyStr) :: args,
          (name ++ ".to_argument(" ++ toString pos ++ ")") :: procArgs)

/-- The per-procedure body of the loop in `build_json`, after the
`is_case(Pascal)` filter has passed: build the snake-cased `pub` method
with `&self`, its typed parameters, the body template, and the optional
return type decoded from `return_type`. -/
def build_proc (service_name proc_name : String) (def_json : Json) : Option Function := do
  let defObj ← def_json.asObject
  let paramsJ ← objGet defObj "parameters"
  let params ← paramsJ.asArray
  let (args, procArgs) ← build_params 0 params
  let body := procBody service_name proc_name (String.intercalate "," procArgs)
  let base : Function :=
    { name := toSnakeCase proc_name, vis := some "pub", selfRef := true,
      args := args, ret := none, lines := [body] }
  match objGet defObj "return_type" with
  | none => pure base
  | some rv => do
    let ty ← rv.asObject
    let return_type ← decode_type ty
    pure { base with ret := some return_type }

/-- The procedure loop of `build_json`: skip any procedure whose raw name is
not Pascal-cased (`continue`), emit one method for each remaining one, in
map-iteration order. -/
def build_procs (service_name : String) : List (String × Json) → Option (List Function)
  | [] => some []
  | (proc_name, d) :: rest =>
    if isCasePascal proc_name then do
      let fn ← build_proc service_name proc_name d
      let fns ← build_procs service_name rest
      pure (fn :: fns)
    else
      build_procs service_name rest

/-- The inner loop of the enumeration pass: read `d.get("name").as_str()`
for every entry of the `values` array, in order. -/
def build_enum_values : List Json → Option (List String)
  | [] => some []
  | d :: rest => do
    let nJ ← d.get "name"
    let v ← nJ.asStr
    let vs ← build_enum_values rest
    pure (v :: vs)

/-- One enumeration: fetch its `values` array and emit the
`crate::schema::rpc_enum!` raw line with the values joined by `", "`. -/
def build_enum (enum_name : String) (values_json : Json) : Option String := do
  let vObj ← values_json.asObject
  let vJ ← objGet vObj "values"
  let arr ← vJ.asArray
  let vs ← build_enum_values arr
  pure ("crate::schema::rpc_enum!(" ++ enum_name ++ ", [" ++
          String.intercalate ", " vs ++ "]);")

/-- The enumeration loop of `build_json`. -/
def build_enums : List (String × Json) → Option (List String)
  | [] => some []
  | (enum_name, vj) :: rest => do
    let s ← build_enum enum_name vj
    let ss ← build_enums rest
    pure (s :: ss)

/-- Rust `build_json`: create the `pub` snake-cased module importing
`ToArgument`, the `pub` Pascal-cased service struct with the shared client
field, one `rpc_object!` raw line per class key, one `rpc_enum!` raw line
per enumeration, and the impl block holding the `new` constructor followed
by one method per eligible procedure.  `none` models a panic from any of
the `unwrap`s on a malformed document. -/
def build_json (service_name : String) (props_json : Json) : Option Module := do
  let props ← props_json.asObject
  let cJ ← objGet props "classes"
  let classes ← cJ.asObject
  let classRaws := classes.map
    (fun kv => "crate::schema::rpc_object!(" ++ kv.1 ++ ");")
  let eJ ← objGet props "enumerations"
  let enums ← eJ.asObject
  let enumRaws ← build_enums enums
  let pJ ← objGet props "procedures"
  let procedures ← pJ.asObject
  let fns ← build_procs service_name procedures
  pure { name := toSnakeCase service_name,
         vis := some "pub",
         imports := [("crate::schema", "ToArgument")],
         items :=
           Item.strukt { name := toPascalCase service_name,
                         vis := some "pub",
                         fields := [("pub client", clientTy)] } ::
           classRaws.map Item.raw ++
           enumRaws.map Item.raw ++
           [Item.impl_ { target := toPascalCase service_name,
                         fns := newFn :: fns }] }

/-! ### The driver: `build` -/

/-- The inner loop of `build`: fold every `(name, props)` service entry of
one document into the scope via `build_json`. -/
def processServices (scope : List Module) : List (String × Json) → Option (List Module)
  | [] => some scope
  | (name, props) :: rest => do
    let m ← build_json name props
    processServices (scope ++ [m]) rest

/-- One file of the directory walk.  `Except.error` collapses the three
fatal I/O outcomes of the source (directory-entry error, unopenable file,
invalid JSON); `Except.ok j` is the parsed document. -/
def processFile (scope : List Module) (f : Except Unit Json) : Option (List Module) :=
  match f with
  | Except.error _ => none
  | Except.ok j => do
    let kvs ← j.asObject
    processServices scope kvs

/-- The directory loop of `build`, threading the accumulated scope. -/
def buildScope (scope : List Module) : List (Except Unit Json) → Option (List Module)
  | [] => some scope
  | f :: rest => do
    let scope' ← processFile scope f
    buildScope scope' rest

/-- Rendering of one function, abstracting the `codegen` crate's formatter. -/
def renderFn (f : Function) : String :=
  (f.vis.getD "") ++ " fn " ++ f.name ++ "(" ++
    (if f.selfRef then "&self, " else "") ++
    String.intercalate ", " (f.args.map (fun a => a.1 ++ ": " ++ a.2)) ++ ")" ++
    (match f.ret with | some r => " -> " ++ r | none => "") ++
    " \x7b" ++ String.intercalate "\n" f.lines ++ "\x7d"

/-- Rendering of one scope item, abstracting the `codegen` crate's formatter. -/
def renderItem : Item → String
  | Item.strukt s =>
    (s.vis.getD "") ++ " struct " ++ s.name ++ " \x7b" ++
      String.intercalate ", " (s.fields.map (fun a => a.1 ++ ": " ++ a.2)) ++ "\x7d"
  | Item.raw s => s
  | Item.impl_ i =>
    "impl " ++ i.target ++ " \x7b" ++
      String.intercalate "\n" (i.fns.map renderFn) ++ "\x7d"

/-- Rendering of one module, abstracting the `codegen` crate's formatter. -/
def renderModule (m : Module) : String :=
  (m.vis.getD "") ++ " mod " ++ m.name ++ " \x7b" ++
    String.intercalate "\n" (m.imports.map (fun i => "use " ++ i.1 ++ "::" ++ i.2 ++ ";")) ++
    String.intercalate "\n" (m.items.map renderItem) ++ "\x7d"

/-- `scope.to_string()`, abstracting the `codegen` crate's formatter. -/
def renderScope (scope : List Module) : String :=
  String.intercalate "\n" (scope.map renderModule)

/-- The observable outcome of one generation run: the sequence of writes
performed on the output sink, and whether the run succeeded. -/
structure RunOutcome where
  writes : List String
  ok : Bool
deriving Repr, DecidableEq

/-- Rust `build`: fold every file into one scope; any failure aborts the
whole run before the single `write!` of the rendered scope, which happens
only at the very end, on success. -/
def build (files : List (Except Unit Json)) : RunOutcome :=
  match buildScope [] files with
  | none => { writes := [], ok := false }
  | some scope => { writes := [renderScope scope], ok := true }

/-! ### Projections used by the claim statements -/

/-- Whether `needle` occurs as a contiguous substring of `hay`. -/
def listIsSub (needle : List Char) : List Char → Bool
  | [] => needle.isEmpty
  | c :: rest => needle.isPrefixOf (c :: rest) || listIsSub needle rest

/-- String-level substring test. -/
def strContains (hay needle : String) : Bool :=
  listIsSub needle.data hay.data

/-- The snake-cased name a parameter object contributes to the generated
argument list (`param.get("name").unwrap().as_str().unwrap().to_case(Snake)`). -/
def paramArgName (p : Json) : Option String :=
  match p.asObject with
  | none => none
  | some o =>
    match objGet o "name" with
    | none => none
    | some nJ => (nJ.asStr).map toSnakeCase

/-- The unconditional per-procedure traversal: emit one method for every
listed procedure, with no eligibility filter.  Used to state C2. -/
def build_procs_each (service_name : String) : List (String × Json) → Option (List Function)
  | [] => some []
  | (proc_name, d) :: rest => do
    let fn ← build_proc service_name proc_name d
    let fns ← build_procs_each service_name rest
    pure (fn :: fns)

/-- A file is fatal for the run when it cannot be opened or parsed, when its
document is not a JSON object, or when `build_json` panics on one of its
service entries. -/
def fileFails : Except Unit Json → Prop
  | Except.error _ => True
  | Except.ok j =>
    match j.asObject with
    | none => True
    | some kvs => ∃ kv ∈ kvs, build_json kv.1 kv.2 = none

/-! ### Concrete inputs used by the witnesses -/

/-- Concrete two-parameter list used by the C1 witness. -/
def wParams : List Json := [
  Json.obj [("name", Json.str "TargetBody"), ("type", Json.obj [("code", Json.str "STRING")])],
  Json.obj [("name", Json.str "MaxSpeed"), ("type", Json.obj [("code", Json.str "FLOAT")])]]

/-- A concrete procedure body with no parameters and no return type. -/
def wProcDef : Json := Json.obj [("parameters", Json.arr [])]

/-- The method `build_proc` emits for `wProcDef` under service `Demo`,
procedure `GetName`. -/
def wProcFn : Function :=
  { name := "get_name", vis := some "pub", selfRef := true,
    args := [], ret := none, lines := [procBody "Demo" "GetName" ""] }

/-- A concrete procedure body with no parameters and a `STRING` return. -/
def wRetProcDef : Json :=
  Json.obj [("parameters", Json.arr []),
            ("return_type", Json.obj [("code", Json.str "STRING")])]

/-- The method `build_proc` emits for `wRetProcDef` under service `Demo`,
procedure `GetStatus`. -/
def wRetProcFn : Function :=
  { name := "get_status", vis := some "pub", selfRef := true,
    args := [], ret := some "String", lines := [procBody "Demo" "GetStatus" ""] }

/-- A concrete service body with empty `classes` and `enumerations` maps
and a `procedures` map holding only an ineligible (non-Pascal) name. -/
def wEmptyProps : Json :=
  Json.obj [("classes", Json.obj []),
            ("enumerations", Json.obj []),
            ("procedures", Json.obj [("internal_thing", Json.obj [])])]

/-- The module `build_json` emits for service `Demo` with `wEmptyProps`. -/
def wEmptyModule : Module :=
  { name := "demo", vis := some "pub",
    imports := [("crate::schema", "ToArgument")],
    items := [Item.strukt { name := "Demo", vis := some "pub",
                            fields := [("pub client", clientTy)] },
              Item.impl_ { target := "Demo", fns := [newFn] }] }

/-! ### Claims -/

/-- Helper for C1, generalizing the running position: a successful run of
the parameter loop started at `pos` yields one tagged argument per
parameter, the `i`-th being the `i`-th parameter's snake-cased name tagged
with `pos + i`. -/
theorem build_params_entries (params : List Json) : ∀ (pos : Nat)
    (args : List (String × String)) (procArgs : List String),
    build_params pos params = some (args, procArgs) →
    procArgs.length = params.length ∧
    ∀ i, i < params.length →
      ∃ nm, (params[i]?.bind paramArgName) = some nm ∧
        procArgs[i]? = some (nm ++ ".to_argument(" ++ toString (pos + i) ++ ")") := by
  induction params with
  | nil =>
    intro pos args procArgs h
    simp only [build_params, Option.some.injEq, Prod.mk.injEq] at h
    obtain ⟨h1, h2⟩ := h
    subst h1
    subst h2
    exact ⟨rfl, by intro i hi; simp at hi⟩
  | cons p rest ih =>
    intro pos args procArgs h
    simp only [build_params, Option.bind_eq_some, Option.pure_def,
               Option.some.injEq, bind, Prod.mk.injEq] at h
    obtain ⟨param, hpo, nameJ, hn, nameRaw, hns, tyJ, ht, ty, hto, tyStr, hdt,
            ⟨args', procArgs'⟩, hrest, hargs, hpargs⟩ := h
    subst hargs
    subst hpargs
    obtain ⟨hlen, hentries⟩ := ih (pos + 1) args' procArgs' hrest
    constructor
    · simp [hlen]
    · intro i hi
      cases i with
      | zero =>
        refine ⟨toSnakeCase nameRaw, ?_, ?_⟩
        · simp [paramArgName, hpo, hn, hns]
        · simp
      | succ i =>
        have hi' : i < rest.length := by simpa using hi
        obtain ⟨nm, hnm, hentry⟩ := hentries i hi'
        refine ⟨nm, by simpa using hnm, ?_⟩
        have hIdx : pos + 1 + i = pos + (i + 1) := by omega
        simpa [hIdx] using hentry

/-- C1: for every eligible procedure with `N` parameters, a successful run
of the parameter loop produces exactly `N` tagged-argument entries, the
`i`-th (zero-based) being the `i`-th parameter of the declared order
converted with positional tag `i`; no parameter is reordered, dropped or
duplicated. -/
theorem claim_c1 (params : List Json) (args : List (String × String))
    (procArgs : List String)
    (h : build_params 0 params = some (args, procArgs)) :
    procArgs.length = params.length ∧
    ∀ i, i < params.length →
      ∃ nm, (params[i]?.bind paramArgName) = some nm ∧
        procArgs[i]? = some (nm ++ ".to_argument(" ++ toString i ++ ")") := by
  obtain ⟨hlen, hentries⟩ := build_params_entries params 0 args procArgs h
  refine ⟨hlen, fun i hi => ?_⟩
  obtain ⟨nm, hnm, hentry⟩ := hentries i hi
  exact ⟨nm, hnm, by simpa using hentry⟩

/-- C1 witness: on a concrete two-parameter procedure the loop produces the
two entries `target_body.to_argument(0)` and `max_speed.to_argument(1)`. -/
theorem claim_c1_witness :
    ["target_body.to_argument(0)", "max_speed.to_argument(1)"].length = wParams.length ∧
    ∀ i, i < wParams.length →
      ∃ nm, (wParams[i]?.bind paramArgName) = some nm ∧
        ["target_body.to_argument(0)", "max_speed.to_argument(1)"][i]? =
          some (nm ++ ".to_argument(" ++ toString i ++ ")") :=
  claim_c1 wParams [("target_body", "String"), ("max_speed", "f32")]
    ["target_body.to_argument(0)", "max_speed.to_argument(1)"]
    (by
      have h1 : decode_type [("code", Json.str "STRING")] = some "String" := by
        unfold decode_type
        simp [objGet, Json.asStr]
      have h2 : decode_type [("code", Json.str "FLOAT")] = some "f32" := by
        unfold decode_type
        simp [objGet, Json.asStr]
      simp [wParams, build_params, Json.asObject, objGet, Json.asStr, h1, h2]
      exact ⟨⟨rfl, rfl⟩, rfl, rfl⟩)

/-- C2: the procedure loop emits one bound method per procedure whose raw,
unnormalized name is Pascal-cased, and nothing for any other procedure —
it equals the unconditional traversal run on only the Pascal-named
procedures, so a skipped procedure produces no output, no error (even when
its body is malformed, since the filter fires before any field access),
and has no effect on the other procedures of the same service. -/
theorem claim_c2 (service_name : String) (procs : List (String × Json)) :
    build_procs service_name procs =
      build_procs_each service_name (procs.filter (fun kv => isCasePascal kv.1)) := by
  induction procs with
  | nil => simp [build_procs, build_procs_each]
  | cons kv rest ih =>
    obtain ⟨n, d⟩ := kv
    by_cases hp : isCasePascal n
    · simp [build_procs, build_procs_each, hp, List.filter_cons, ih]
    · simp [build_procs, hp, List.filter_cons, ih]

/-- C3: type resolution maps each primitive kind code in the closed set to
its fixed target type name (`STRING` to `String`, `SINT32` to `i32`, `BOOL`
to `bool`, `FLOAT` to `f32`, `DOUBLE` to `f64`), and for any code string
outside the recognized set (the eight match arms) it returns the
empty-string sentinel rather than failing. -/
theorem claim_c3 (ty : List (String × Json)) (c : String)
    (h : objGet ty "code" = some (Json.str c)) :
    (c = "STRING" → decode_type ty = some "String") ∧
    (c = "SINT32" → decode_type ty = some "i32") ∧
    (c = "BOOL" → decode_type ty = some "bool") ∧
    (c = "FLOAT" → decode_type ty = some "f32") ∧
    (c = "DOUBLE" → decode_type ty = some "f64") ∧
    (c ∉ ["STRING", "SINT32", "BOOL", "FLOAT", "DOUBLE", "TUPLE", "LIST", "CLASS"] →
      decode_type ty = some "") := by
  refine ⟨?_, ?_, ?_, ?_, ?_, ?_⟩ <;> intro hc
  · subst hc
    unfold decode_type
    simp [h, Json.asStr]
  · subst hc
    unfold decode_type
    simp [h, Json.asStr]
  · subst hc
    unfold decode_type
    simp [h, Json.asStr]
  · subst hc
    unfold decode_type
    simp [h, Json.asStr]
  · subst hc
    unfold decode_type
    simp [h, Json.asStr]
  · unfold decode_type
    simp only [h, Json.asStr]
    split <;> simp_all

/-- C3 witness: `BOOL` resolves to `bool` and the unrecognized code
`FROBNICATE` resolves to the empty-string sentinel. -/
theorem claim_c3_witness :
    decode_type [("code", Json.str "BOOL")] = some "bool" ∧
    decode_type [("code", Json.str "FROBNICATE")] = some "" :=
  ⟨(claim_c3 [("code", Json.str "BOOL")] "BOOL" rfl).2.2.1 rfl,
   (claim_c3 [("code", Json.str "FROBNICATE")] "FROBNICATE" rfl).2.2.2.2.2 (by decide)⟩

/-- C6: resolving a `LIST` type descriptor consults only the first entry of
its `types` array — the result is `Vec<...>` over that entry's resolution,
and the trailing entries `rest` are universally quantified and absent from
the right-hand side, so they have no effect on the result. -/
theorem claim_c6 (ty : List (String × Json)) (t : Json) (rest : List Json)
    (o : List (String × Json))
    (h1 : objGet ty "types" = some (Json.arr (t :: rest)))
    (h2 : t.asObject = some o) :
    decode_list ty = (decode_type o).map (fun s => "Vec<" ++ s ++ ">") := by
  unfold decode_list
  split
  · simp_all
  · rename_i typesJ heq
    rw [h1] at heq
    cases heq
    split
    · simp_all [Json.asArray]
    · rename_i types heq2
      simp only [Json.asArray] at heq2
      cases heq2
      split
      · simp_all
      · rename_i tv tailv harr hcons hheq
        injection hcons with hA hB
        subst hA
        subst hB
        split
        · simp_all
        · rename_i o' h4
          rw [h2] at h4
          cases h4
          rfl

/-- C6 witness: a `types` array with two entries resolves to `Vec<String>`
from the first entry alone, and replacing the second entry changes nothing. -/
theorem claim_c6_witness :
    decode_list [("types", Json.arr [Json.obj [("code", Json.str "STRING")],
                                     Json.obj [("code", Json.str "BOOL")]])] =
      (decode_type [("code", Json.str "STRING")]).map (fun s => "Vec<" ++ s ++ ">") :=
  claim_c6 _ _ [Json.obj [("code", Json.str "BOOL")]] _ rfl rfl

/-- C7: for every `CLASS` type descriptor with service `S` and class name
`N`, the resolved type expression concatenates the snake-cased (namespace)
form of `S` with the literal, unmodified class name `N`. -/
theorem claim_c7 (ty : List (String × Json)) (S N : String)
    (hS : objGet ty "service" = some (Json.str S))
    (hN : objGet ty "name" = some (Json.str N)) :
    decode_class ty = some ("crate::services::" ++ toSnakeCase S ++ "::" ++ N) := by
  unfold decode_class
  simp [hS, hN, Json.asStr]

/-- C7 witness: `CLASS{service: "SpaceCenter", name: "Vessel"}` resolves to
`crate::services::space_center::Vessel`. -/
theorem claim_c7_witness :
    decode_class [("service", Json.str "SpaceCenter"), ("name", Json.str "Vessel")] =
      some ("crate::services::" ++ toSnakeCase "SpaceCenter" ++ "::" ++ "Vessel") :=
  claim_c7 _ "SpaceCenter" "Vessel" rfl rfl

/-! ### Substring helpers -/

theorem isPrefixOf_self_append (l t : List Char) : l.isPrefixOf (l ++ t) = true := by
  induction l with
  | nil => simp [List.isPrefixOf]
  | cons c l' ih => simp [List.isPrefixOf, ih]

theorem listIsSub_append (y a c : List Char) : listIsSub y (a ++ (y ++ c)) = true := by
  induction a with
  | nil =>
    cases y with
    | nil => cases c <;> simp [listIsSub, List.isPrefixOf]
    | cons yh yt =>
      simp only [List.nil_append, List.cons_append, listIsSub]
      have hpre := isPrefixOf_self_append (yh :: yt) c
      simp only [List.cons_append] at hpre
      simp [hpre]
  | cons ah arest ih => simp [listIsSub, ih]

theorem strContains_mid (x y z : String) : strContains (x ++ y ++ z) y = true := by
  simp only [strContains, String.data_append, List.append_assoc]
  exact listIsSub_append y.data x.data z.data

theorem strContains_of_eq {hay x y z : String} (he : hay = x ++ y ++ z) :
    strContains hay y = true := he ▸ strContains_mid x y z

theorem listIsSub_append_left (y h t : List Char) (hs : listIsSub y t = true) :
    listIsSub y (h ++ t) = true := by
  induction h with
  | nil => simpa
  | cons c h' ih => simp [listIsSub, ih]

theorem strContains_right (pre t y : String) (h : strContains t y = true) :
    strContains (pre ++ t) y = true := by
  simp only [strContains, String.data_append]
  exact listIsSub_append_left y.data pre.data t.data h

/-! ### Shape of a generated method -/

/-- Shared destructuring of a successful `build_proc`: the emitted method is
publicly visible, snake-case named, takes `&self`, and its body is exactly
one line, the `procBody` template instantiated with the raw service and
procedure names; its return type follows `return_type` exactly. -/
theorem build_proc_shape (service_name proc_name : String) (d : Json) (fn : Function)
    (h : build_proc service_name proc_name d = some fn) :
    fn.name = toSnakeCase proc_name ∧ fn.vis = some "pub" ∧ fn.selfRef = true ∧
    (∃ a, fn.lines = [procBody service_name proc_name a]) ∧
    ∃ defObj, d.asObject = some defObj ∧
      (objGet defObj "return_type" = none → fn.ret = none) ∧
      (∀ rv, objGet defObj "return_type" = some rv →
        ∃ tyObj rt, rv.asObject = some tyObj ∧ decode_type tyObj = some rt ∧
          fn.ret = some rt) := by
  simp only [build_proc, bind, Option.bind_eq_some] at h
  obtain ⟨defObj, h1, paramsJ, h2, params, h3, ⟨args, procArgs⟩, h4, h5⟩ := h
  cases hrt : objGet defObj "return_type" with
  | none =>
    rw [hrt] at h5
    simp only [Option.pure_def, Option.some.injEq] at h5
    subst h5
    exact ⟨rfl, rfl, rfl, ⟨_, rfl⟩, defObj, h1, fun _ => rfl,
           fun rv hrv => by rw [hrt] at hrv; cases hrv⟩
  | some rv =>
    rw [hrt] at h5
    simp only [bind, Option.bind_eq_some, Option.pure_def, Option.some.injEq] at h5
    obtain ⟨tyObj, h6, rt, h7, h8⟩ := h5
    subst h8
    refine ⟨rfl, rfl, rfl, ⟨_, rfl⟩, defObj, h1, fun hnone => ?_, fun rv' hrv' => ?_⟩
    · rw [hrt] at hnone; cases hnone
    · rw [hrt] at hrv'
      cases hrv'
      exact ⟨tyObj, rt, h6, h7, rfl⟩

/-- Shared structural facts about a successful `build_json`: the module is
public and snake-case named, its first item is the public Pascal-cased
service struct with the shared-client field, and its last item is the impl
block whose first function is the `new` constructor. -/
theorem build_json_shape (service_name : String) (props : Json) (m : Module)
    (h : build_json service_name props = some m) :
    m.vis = some "pub" ∧
    m.name = toSnakeCase service_name ∧
    m.imports = [("crate::schema", "ToArgument")] ∧
    (∃ mid fns, m.items = Item.strukt { name := toPascalCase service_name,
                                        vis := some "pub",
                                        fields := [("pub client", clientTy)] } ::
      mid ++ [Item.impl_ { target := toPascalCase service_name,
                           fns := newFn :: fns }]) := by
  simp only [build_json, bind, Option.bind_eq_some, Option.pure_def,
             Option.some.injEq] at h
  obtain ⟨props', h1, cJ, h2, classes, h3, eJ, h4, enums, h5, enumRaws, h6,
          pJ, h7, procedures, h8, fns, h9, h10⟩ := h
  subst h10
  exact ⟨rfl, rfl, rfl,
    (classes.map (fun kv => "crate::schema::rpc_object!(" ++ kv.1 ++ ");")).map Item.raw
      ++ enumRaws.map Item.raw, fns, by simp⟩

/-- C4: the request constructed in every emitted method's body carries the
service name and the procedure name exactly as they appear in the schema
document — `procBody` splices the raw `service_name` and raw `proc_name`
between the quotes of the `proc_call` invocation, and the quoted pair
`"service_name",\n    "proc_name"` occurs verbatim in the body line — even
though the surrounding module name, struct name and method name are the
casing-normalized forms of those same strings. -/
theorem claim_c4 (service_name proc_name : String) (d : Json) (fn : Function)
    (props : Json) (m : Module)
    (hf : build_proc service_name proc_name d = some fn)
    (hm : build_json service_name props = some m) :
    (∃ a, fn.lines = [procBody service_name proc_name a] ∧
      strContains (procBody service_name proc_name a)
        ("\"" ++ service_name ++ "\",\n    \"" ++ proc_name ++ "\"") = true) ∧
    fn.name = toSnakeCase proc_name ∧
    m.name = toSnakeCase service_name ∧
    (∃ mid, m.items = Item.strukt { name := toPascalCase service_name,
                                    vis := some "pub",
                                    fields := [("pub client", clientTy)] } :: mid) := by
  obtain ⟨hname, _, _, ⟨a, hlines⟩, _⟩ := build_proc_shape _ _ _ _ hf
  obtain ⟨_, hmname, _, ⟨mid, fns0, hitems⟩⟩ := build_json_shape _ _ _ hm
  refine ⟨⟨a, hlines, ?_⟩, hname, hmname, ⟨_, hitems⟩⟩
  apply strContains_of_eq
    (x := "\nlet request = crate::schema::Request::from(crate::client::Client::proc_call(\n    ")
    (z := ",\n    vec![" ++ a ++
      "],\n));\n\nlet response = self.client.call(request);\ndbg!(&response);\n\nresponse.into()\n")
  simp only [procBody, String.append_assoc]
  rfl

/-- C5: a successful `build_proc` with no `return_type` entry yields a
method with no declared return type whose single body line still ends in
the response-conversion step (`response.into()` occurs in the body); with
a `return_type` entry, the declared return type is the type resolver's
rendering of that TypeRef. -/
theorem claim_c5 (service_name proc_name : String) (d : Json) (fn : Function)
    (h : build_proc service_name proc_name d = some fn) :
    (∃ a, fn.lines = [procBody service_name proc_name a] ∧
      strContains (procBody service_name proc_name a) "response.into()" = true) ∧
    ∃ defObj, d.asObject = some defObj ∧
      (objGet defObj "return_type" = none → fn.ret = none) ∧
      (∀ rv, objGet defObj "return_type" = some rv →
        ∃ tyObj rt, rv.asObject = some tyObj ∧ decode_type tyObj = some rt ∧
          fn.ret = some rt) := by
  obtain ⟨_, _, _, ⟨a, hlines⟩, defObj, h1, h2, h3⟩ := build_proc_shape _ _ _ _ h
  refine ⟨⟨a, hlines, ?_⟩, defObj, h1, h2, h3⟩
  unfold procBody
  exact strContains_right _
    "],\n));\n\nlet response = self.client.call(request);\ndbg!(&response);\n\nresponse.into()\n"
    _ (by decide)

/-- C4 witness: the concrete no-parameter procedure `GetName` of service
`Demo` yields a body whose request carries `"Demo"` and `"GetName"` raw,
inside the normalized module `demo` / struct `Demo` / method `get_name`. -/
theorem claim_c4_witness :
    (∃ a, wProcFn.lines = [procBody "Demo" "GetName" a] ∧
      strContains (procBody "Demo" "GetName" a)
        ("\"" ++ "Demo" ++ "\",\n    \"" ++ "GetName" ++ "\"") = true) ∧
    wProcFn.name = toSnakeCase "GetName" ∧
    wEmptyModule.name = toSnakeCase "Demo" ∧
    (∃ mid, wEmptyModule.items = Item.strukt { name := toPascalCase "Demo",
                                               vis := some "pub",
                                               fields := [("pub client", clientTy)] } :: mid) :=
  claim_c4 "Demo" "GetName" wProcDef wProcFn wEmptyProps wEmptyModule rfl rfl

/-- C5 witness: the concrete procedure `GetStatus` with `return_type`
`STRING` is emitted with declared return type `String`, and its body
performs the response conversion. -/
theorem claim_c5_witness :
    (∃ a, wRetProcFn.lines = [procBody "Demo" "GetStatus" a] ∧
      strContains (procBody "Demo" "GetStatus" a) "response.into()" = true) ∧
    ∃ defObj, wRetProcDef.asObject = some defObj ∧
      (objGet defObj "return_type" = none → wRetProcFn.ret = none) ∧
      (∀ rv, objGet defObj "return_type" = some rv →
        ∃ tyObj rt, rv.asObject = some tyObj ∧ decode_type tyObj = some rt ∧
          wRetProcFn.ret = some rt) :=
  claim_c5 "Demo" "GetStatus" wRetProcDef wRetProcFn
    (by
      have h1 : decode_type [("code", Json.str "STRING")] = some "String" := by
        unfold decode_type
        simp [objGet, Json.asStr]
      simp [build_proc, wRetProcDef, build_params, Json.asObject, Json.asArray,
            objGet, Json.asStr, h1]
      try rfl)

/-- C9 counterexample: the claim that an emitted method's body consists
only of argument conversion, request construction, one client call and
response conversion is false — for the concrete eligible procedure
`GetName` of service `Demo` the generated body also contains the statement
`dbg!(&response);`, a debug print of the response to standard error, which
is an observable action beyond the RPC dispatch. -/
theorem claim_c9_counterexample :
    ∃ fn l, build_proc "Demo" "GetName" wProcDef = some fn ∧
      fn.lines = [l] ∧ strContains l "dbg!(&response);" = true :=
  ⟨wProcFn, procBody "Demo" "GetName" "", rfl, rfl, by decide⟩

/-- C9 amended: every emitted method's body is exactly one instance of the
fixed `procBody` template — parameter-to-argument conversion, request
construction, a single dispatch through the shared client, a `dbg!` debug
print of the response to standard error, and response conversion — with no
retries and no caching; the debug print is the one observable action
beyond the single RPC dispatch. -/
theorem claim_c9 (service_name proc_name : String) (d : Json) (fn : Function)
    (h : build_proc service_name proc_name d = some fn) :
    ∃ a, fn.lines = [procBody service_name proc_name a] ∧
      strContains (procBody service_name proc_name a)
        "let response = self.client.call(request);" = true ∧
      strContains (procBody service_name proc_name a) "dbg!(&response);" = true := by
  obtain ⟨_, _, _, ⟨a, hlines⟩, _⟩ := build_proc_shape _ _ _ _ h
  refine ⟨a, hlines, ?_, ?_⟩ <;>
    · unfold procBody
      exact strContains_right _
        "],\n));\n\nlet response = self.client.call(request);\ndbg!(&response);\n\nresponse.into()\n"
        _ (by decide)

/-- C9 witness: the amended statement instantiated at the concrete
procedure `GetStatus` of service `Demo`. -/
theorem claim_c9_witness :
    ∃ a, wRetProcFn.lines = [procBody "Demo" "GetStatus" a] ∧
      strContains (procBody "Demo" "GetStatus" a)
        "let response = self.client.call(request);" = true ∧
      strContains (procBody "Demo" "GetStatus" a) "dbg!(&response);" = true :=
  claim_c9 "Demo" "GetStatus" wRetProcDef wRetProcFn
    (by
      have h1 : decode_type [("code", Json.str "STRING")] = some "String" := by
        unfold decode_type
        simp [objGet, Json.asStr]
      simp [build_proc, wRetProcDef, build_params, Json.asObject, Json.asArray,
            objGet, Json.asStr, h1]
      try rfl)

/-- C10: every service entry that `build_json` accepts — including one with
empty `classes` and `enumerations` maps and no eligible procedure — yields
a public module named with the snake-case form of the service name whose
first item is the public Pascal-case service struct holding the shared
client field, and whose impl block (targeting that struct) starts with the
`new` constructor taking the shared client handle and returning `Self` by
plain field assignment. -/
theorem claim_c10 (service_name : String) (props : Json) (m : Module)
    (h : build_json service_name props = some m) :
    m.vis = some "pub" ∧
    m.name = toSnakeCase service_name ∧
    (∃ mid, m.items = Item.strukt { name := toPascalCase service_name,
                                    vis := some "pub",
                                    fields := [("pub client", clientTy)] } :: mid) ∧
    (∃ i, Item.impl_ i ∈ m.items ∧ i.target = toPascalCase service_name ∧
      ∃ fns, i.fns = newFn :: fns) := by
  obtain ⟨hvis, hname, _, ⟨mid, fns, hitems⟩⟩ := build_json_shape _ _ _ h
  refine ⟨hvis, hname, ⟨_, hitems⟩,
    ⟨{ target := toPascalCase service_name, fns := newFn :: fns }, ?_, rfl, fns, rfl⟩⟩
  rw [hitems]
  simp

/-- C10 witness: a `Demo` service with empty classes, empty enumerations
and only an ineligible procedure still produces the public module `demo`
with public struct `Demo`, the client field, and the `new` constructor. -/
theorem claim_c10_witness :
    wEmptyModule.vis = some "pub" ∧
    wEmptyModule.name = toSnakeCase "Demo" ∧
    (∃ mid, wEmptyModule.items = Item.strukt { name := toPascalCase "Demo",
                                               vis := some "pub",
                                               fields := [("pub client", clientTy)] } :: mid) ∧
    (∃ i, Item.impl_ i ∈ wEmptyModule.items ∧ i.target = toPascalCase "Demo" ∧
      ∃ fns, i.fns = newFn :: fns) :=
  claim_c10 "Demo" wEmptyProps wEmptyModule rfl

/-! ### Atomic failure of the driver -/

theorem processServices_eq_none (kvs : List (String × Json)) : ∀ scope,
    processServices scope kvs = none ↔ ∃ kv ∈ kvs, build_json kv.1 kv.2 = none := by
  induction kvs with
  | nil => intro scope; simp [processServices]
  | cons kv rest ih =>
    intro scope
    obtain ⟨n, p⟩ := kv
    simp only [processServices, bind, Option.bind]
    cases hbj : build_json n p with
    | none => simp [hbj]
    | some m => simp [hbj, ih (scope ++ [m])]

theorem processFile_eq_none (scope : List Module) (f : Except Unit Json) :
    processFile scope f = none ↔ fileFails f := by
  cases f with
  | error e => simp [processFile, fileFails]
  | ok j =>
    cases hobj : j.asObject with
    | none => simp [processFile, fileFails, hobj, bind, Option.bind]
    | some kvs =>
      simp [processFile, fileFails, hobj, bind, Option.bind,
            processServices_eq_none kvs scope]

theorem buildScope_eq_none (files : List (Except Unit Json)) : ∀ scope,
    buildScope scope files = none ↔ ∃ f ∈ files, fileFails f := by
  induction files with
  | nil => intro scope; simp [buildScope]
  | cons f rest ih =>
    intro scope
    simp only [buildScope, bind, Option.bind]
    cases hpf : processFile scope f with
    | none =>
      have := (processFile_eq_none scope f).mp hpf
      simp [this]
    | some scope' =>
      have : ¬ fileFails f := fun hff =>
        by rw [(processFile_eq_none scope f).mpr hff] at hpf; cases hpf
      simp [ih scope', this]

/-- C8: the run fails atomically — if any file cannot be opened or parsed,
or any service entry's schema shape mismatches a field access inside
`build_json`, the run aborts with zero writes to the output sink; when no
file fails, the sink receives exactly one write, the rendered scope, at the
end.  There is no partial output and no per-service or per-procedure error
isolation. -/
theorem claim_c8 (files : List (Except Unit Json)) :
    ((∃ f ∈ files, fileFails f) → build files = { writes := [], ok := false }) ∧
    ((∀ f ∈ files, ¬ fileFails f) →
      ∃ scope, buildScope [] files = some scope ∧
        build files = { writes := [renderScope scope], ok := true }) := by
  constructor
  · intro hex
    have hnone : buildScope [] files = none := (buildScope_eq_none files []).mpr hex
    simp [build, hnone]
  · intro hall
    cases hsc : buildScope [] files with
    | none =>
      obtain ⟨f, hf, hff⟩ := (buildScope_eq_none files []).mp hsc
      exact absurd hff (hall f hf)
    | some scope => exact ⟨scope, rfl, by simp [build, hsc]⟩

/-- C8 witness: a run over one unreadable file writes nothing and fails; a
run over one well-formed file succeeds with exactly one write of the
rendered scope. -/
theorem claim_c8_witness :
    build [Except.error ()] = { writes := [], ok := false } ∧
    ∃ scope, buildScope [] [Except.ok (Json.obj [("Demo", wEmptyProps)])] = some scope ∧
      build [Except.ok (Json.obj [("Demo", wEmptyProps)])] =
        { writes := [renderScope scope], ok := true } :=
  ⟨(claim_c8 [Except.error ()]).1 ⟨Except.error (), by simp, by simp [fileFails]⟩,
   (claim_c8 [Except.ok (Json.obj [("Demo", wEmptyProps)])]).2
     (by
       intro f hf
       simp only [List.mem_singleton] at hf
       subst hf
       simp [fileFails, Json.asObject]
       intro hnone
       rw [show build_json "Demo" wEmptyProps = some wEmptyModule from rfl] at hnone
       cases hnone)⟩

end Krpc
